import Mathlib

/-!
# Alert engine of the real-time system monitor dashboard

A shallow embedding of the alert logic of `frontend/src/App.jsx`:
`THRESHOLDS`, `ALERT_COOLDOWN_MS`, `pct`, `severity`, the `maybeAlert` closure of
the alerts effect, and the log operations `ackAlert`, `clearAlerts`,
`clearAcked`, `activeCount`.

Modelling conventions.

* Metric values are JavaScript numbers delivered as JSON; they are modelled as
  rationals (every finite double is a rational, and `>=` on doubles is exact).
  The only arithmetic on them in the alert logic is `t * 0.8` for the three
  constant thresholds; the double products `80 * 0.8`, `90 * 0.8`, `85 * 0.8`
  are exactly `64`, `72`, `68`, the same as the rational products.
* `Date.now()` is an integral number of milliseconds, modelled as an `Int`.
* The React state `alerts` and the ref `lastAlertAtRef.current` are passed
  explicitly as a `State`.  Functional `setAlerts` updates are applied in the
  order in which they are queued.
* The two impure reads of `maybeAlert` (`Math.random()` rendered in base 16
  without its leading `0.`, and `new Date().toISOString()`) are inputs, a `Draw`.
-/

namespace Monitor

/-- The three metric names used as keys of `THRESHOLDS`. -/
inductive Metric
  | cpu
  | mem
  | disk
deriving DecidableEq, Repr

/-- The three strings returned by `severity`. -/
inductive Level
  | OK
  | WARNING
  | CRITICAL
deriving DecidableEq, Repr

/-- The metric as the string that appears in the source. -/
def Metric.name : Metric → String
  | .cpu => "cpu"
  | .mem => "mem"
  | .disk => "disk"

/-- The result of `metric.toUpperCase()`. -/
def Metric.toUpperCase : Metric → String
  | .cpu => "CPU"
  | .mem => "MEM"
  | .disk => "DISK"

/-- The level as the string that appears in the source. -/
def Level.name : Level → String
  | .OK => "OK"
  | .WARNING => "WARNING"
  | .CRITICAL => "CRITICAL"

/-- `const THRESHOLDS = { cpu: 80, mem: 90, disk: 85 }`. -/
def THRESHOLDS : Metric → Nat
  | .cpu => 80
  | .mem => 90
  | .disk => 85

/-- `const ALERT_COOLDOWN_MS = 30_000`. -/
def ALERT_COOLDOWN_MS : Int := 30000

/-- `Number(v).toFixed(1)` for a finite number below `10^21` in absolute value
(which covers every percentage): the sign, then the integer `n` nearest to
`10 * |x|` (the larger one on a tie) written with a point before its last
digit. -/
def toFixed1 (x : ℚ) : String :=
  let sign := if x < 0 then "-" else ""
  let y := if x < 0 then -x else x
  let n := (⌊10 * y + 1 / 2⌋).toNat
  sign ++ toString (n / 10) ++ "." ++ toString (n % 10)

/-- `function pct(v)`: `"--"` for an absent value, else one decimal and `%`. -/
def pct (v : Option ℚ) : String :=
  match v with
  | none => "--"
  | some x => toFixed1 x ++ "%"

/-- `function severity(metric, value)`. -/
def severity (metric : Metric) (value : ℚ) : Level :=
  let t : ℚ := THRESHOLDS metric
  if value ≥ t then .CRITICAL
  else if value ≥ t * 0.8 then .WARNING
  else .OK

/-- An alert record `{id, ts, host, metric, value, level, message, ack}`. -/
structure Alert where
  id : String
  ts : String
  host : String
  metric : Metric
  value : ℚ
  level : Level
  message : String
  ack : Bool
deriving DecidableEq

/-- The alert state of `App`: the `alerts` list (newest first) and the
cooldown object `lastAlertAtRef.current` (key to timestamp). -/
structure State where
  alerts : List Alert
  lastAlertAt : String → Option Int

/-- The state at mount: `useState([])` and `useRef({})`. -/
def State.init : State := ⟨[], fun _ => none⟩

/-- The impure reads of one emitting `maybeAlert` call. -/
structure Draw where
  random : String
  iso : String

/-- The cooldown key, the template string host, colon, metric, colon, level. -/
def cooldownKey (host : String) (metric : Metric) (level : Level) : String :=
  host ++ ":" ++ metric.name ++ ":" ++ level.name

/-- The `setAlerts` updater of `maybeAlert`: prepend, then `slice(0, 20)`. -/
def pushAlert (a : Alert) (prev : List Alert) : List Alert :=
  (a :: prev).take 20

/-- The message of an alert of the given level. -/
def alertMessage (metric : Metric) (value : ℚ) (level : Level) : String :=
  if level = .CRITICAL then
    metric.toUpperCase ++ " crossed threshold (" ++ pct (some value) ++ " ≥ "
      ++ toString (THRESHOLDS metric) ++ "%)"
  else
    metric.toUpperCase ++ " is approaching threshold (" ++ pct (some value) ++ ")"

/-- The closure `maybeAlert(metric, value)` of the alerts effect, for the
effect's `host` and `now`.  Returns the new state and the record handed to
`setAlerts`, if any. -/
def maybeAlert (host : String) (now : Int) (env : Draw) (metric : Metric)
    (value : Option ℚ) (s : State) : State × Option Alert :=
  match value with
  | none => (s, none)
  | some v =>
    let level := severity metric v
    if level = .OK then (s, none)
    else
      let key := cooldownKey host metric level
      -- `x || 0` is `x` for every integer `x`, and `0` for a missing entry
      let lastAt := (s.lastAlertAt key).getD 0
      if now - lastAt < ALERT_COOLDOWN_MS then (s, none)
      else
        let a : Alert :=
          { id := toString now ++ "-" ++ env.random
            ts := env.iso
            host := host
            metric := metric
            value := v
            level := level
            message := alertMessage metric v level
            ack := false }
        (⟨pushAlert a s.alerts, Function.update s.lastAlertAt key (some now)⟩, some a)

/-- The latest point of the polled series, `{cpu, mem, disk}`, each possibly
absent (`latest?.cpu ?? null`). -/
structure Sample where
  cpu : Option ℚ
  mem : Option ℚ
  disk : Option ℚ

/-- The field of the latest point that the effect reads for a metric. -/
def Sample.get (smp : Sample) : Metric → Option ℚ
  | .cpu => smp.cpu
  | .mem => smp.mem
  | .disk => smp.disk

/-- The three calls `maybeAlert("cpu", cpu); maybeAlert("mem", mem);
maybeAlert("disk", disk)`, with the alerts they emit, in emission order. -/
def evaluate (host : String) (now : Int) (env : Metric → Draw) (smp : Sample)
    (s : State) : State × List Alert :=
  let r1 := maybeAlert host now (env .cpu) .cpu smp.cpu s
  let r2 := maybeAlert host now (env .mem) .mem smp.mem r1.1
  let r3 := maybeAlert host now (env .disk) .disk smp.disk r2.1
  (r3.1, r1.2.toList ++ r2.2.toList ++ r3.2.toList)

/-- The alerts effect: nothing happens without a latest point or without a
selected host (`if (!latest || !host) return`). -/
def alertsEffect (host : String) (latest : Option Sample) (now : Int)
    (env : Metric → Draw) (s : State) : State × List Alert :=
  match latest with
  | none => (s, [])
  | some smp => if host = "" then (s, []) else evaluate host now env smp s

/-- `ackAlert(id)`: `prev.map(a => a.id === id ? {...a, ack: true} : a)`. -/
def ackAlert (id : String) (prev : List Alert) : List Alert :=
  prev.map (fun a => if a.id = id then { a with ack := true } else a)

/-- `clearAlerts()`: `setAlerts([])`. -/
def clearAlerts (_prev : List Alert) : List Alert := []

/-- `clearAcked()`: `prev.filter(a => !a.ack)`. -/
def clearAcked (prev : List Alert) : List Alert :=
  prev.filter (fun a => !a.ack)

/-- `activeCount`: `alerts.filter(a => !a.ack).length`. -/
def activeCount (alerts : List Alert) : Nat :=
  (alerts.filter (fun a => !a.ack)).length

/-- The record that an emitting `maybeAlert(metric, value)` call hands to
`setAlerts`, written out once for use in statements. -/
def newAlert (host : String) (now : Int) (env : Draw) (metric : Metric) (v : ℚ) : Alert :=
  { id := toString now ++ "-" ++ env.random
    ts := env.iso
    host := host
    metric := metric
    value := v
    level := severity metric v
    message := alertMessage metric v (severity metric v)
    ack := false }

/-- The value of a list of decimal digit characters (used to read `now` back
from an id). -/
def decodeDigits (l : List Char) : Nat :=
  l.foldl (fun acc c => 10 * acc + (c.toNat - 48)) 0

/-- One step of the application as far as the alert state is concerned: a
single `maybeAlert` invocation (of some pass of the alerts effect), or one of
the three button handlers. -/
inductive Event
  | call (host : String) (now : Int) (env : Draw) (metric : Metric) (value : Option ℚ)
  | ack (id : String)
  | clearAll
  | clearAcked

/-- An emitted alert together with the `now` and the random suffix it was
built from. -/
structure Emission where
  now : Int
  random : String
  alert : Alert

/-- The effect of one event: the next state and what it emitted. -/
def step (s : State) : Event → State × Option Emission
  | .call host now env metric value =>
    let r := maybeAlert host now env metric value s
    (r.1, r.2.map (fun a => ⟨now, env.random, a⟩))
  | .ack id => (⟨ackAlert id s.alerts, s.lastAlertAt⟩, none)
  | .clearAll => (⟨clearAlerts s.alerts, s.lastAlertAt⟩, none)
  | .clearAcked => (⟨clearAcked s.alerts, s.lastAlertAt⟩, none)

/-- The state after a sequence of events. -/
def run : State → List Event → State
  | s, [] => s
  | s, e :: es => run (step s e).1 es

/-- The alerts emitted by a sequence of events, oldest first. -/
def emissions : State → List Event → List Emission
  | _, [] => []
  | s, e :: es => (step s e).2.toList ++ emissions (step s e).1 es

/-- A pass of the alerts effect as a sequence of events. -/
def passEvents (host : String) (latest : Option Sample) (now : Int)
    (env : Metric → Draw) : List Event :=
  match latest with
  | none => []
  | some smp =>
    if host = "" then []
    else [.call host now (env .cpu) .cpu smp.cpu, .call host now (env .mem) .mem smp.mem,
      .call host now (env .disk) .disk smp.disk]

/-- The event is a `maybeAlert` call that evaluates a value with the key
`(host, metric, level)` at a time not before `lo`. -/
def Event.evaluates (host : String) (metric : Metric) (level : Level) (lo : Int) :
    Event → Prop
  | .call h now _ m (some v) => h = host ∧ m = metric ∧ severity m v = level ∧ lo ≤ now
  | _ => False

end Monitor

namespace Monitor

/-! ## Severity classification -/

/-- C1: with thresholds cpu = 80, mem = 90, disk = 85, `severity` is CRITICAL
exactly for values at or above the threshold, WARNING exactly for values from
0.8 times the threshold up to (excluding) the threshold, and OK exactly for
the remaining values. -/
theorem severity_classification (metric : Metric) (v : ℚ) :
    (THRESHOLDS .cpu = 80 ∧ THRESHOLDS .mem = 90 ∧ THRESHOLDS .disk = 85) ∧
    (severity metric v = .CRITICAL ↔ v ≥ THRESHOLDS metric) ∧
    (severity metric v = .WARNING ↔
      0.8 * (THRESHOLDS metric : ℚ) ≤ v ∧ v < THRESHOLDS metric) ∧
    (severity metric v = .OK ↔
      ¬ (v ≥ THRESHOLDS metric) ∧
        ¬ (0.8 * (THRESHOLDS metric : ℚ) ≤ v ∧ v < THRESHOLDS metric)) := by
  have hcomm : (THRESHOLDS metric : ℚ) * 0.8 = 0.8 * (THRESHOLDS metric : ℚ) := mul_comm _ _
  refine ⟨⟨rfl, rfl, rfl⟩, ?_⟩
  rcases le_or_lt (THRESHOLDS metric : ℚ) v with h1 | h1
  · have hs : severity metric v = .CRITICAL := by
      unfold severity
      exact if_pos h1
    rw [hs]
    refine ⟨⟨fun _ => h1, fun _ => rfl⟩, ⟨fun h => (by cases h), fun h => absurd h1 (not_le.mpr h.2)⟩,
      ⟨fun h => (by cases h), fun h => absurd h1 h.1⟩⟩
  · rcases le_or_lt (0.8 * (THRESHOLDS metric : ℚ)) v with h2 | h2
    · have hs : severity metric v = .WARNING := by
        unfold severity
        rw [if_neg (not_le.mpr h1), hcomm, if_pos h2]
      rw [hs]
      refine ⟨⟨fun h => (by cases h), fun h => absurd h (not_le.mpr h1)⟩,
        ⟨fun _ => ⟨h2, h1⟩, fun _ => rfl⟩,
        ⟨fun h => (by cases h), fun h => absurd ⟨h2, h1⟩ h.2⟩⟩
    · have hs : severity metric v = .OK := by
        unfold severity
        rw [if_neg (not_le.mpr h1), hcomm, if_neg (not_le.mpr h2)]
      rw [hs]
      refine ⟨⟨fun h => (by cases h), fun h => absurd h (not_le.mpr h1)⟩,
        ⟨fun h => (by cases h), fun h => absurd h.1 (not_le.mpr h2)⟩,
        ⟨fun _ => ⟨not_le.mpr h1, fun h => absurd h.1 (not_le.mpr h2)⟩, fun _ => rfl⟩⟩

/-! ## The four outcomes of `maybeAlert` -/

theorem maybeAlert_none (host : String) (now : Int) (env : Draw) (metric : Metric)
    (s : State) : maybeAlert host now env metric none s = (s, none) := rfl

theorem maybeAlert_ok (host : String) (now : Int) (env : Draw) (metric : Metric) (v : ℚ)
    (s : State) (h : severity metric v = .OK) :
    maybeAlert host now env metric (some v) s = (s, none) := by
  simp [maybeAlert, h]

theorem maybeAlert_cooldown (host : String) (now : Int) (env : Draw) (metric : Metric)
    (v : ℚ) (s : State)
    (h : now - (s.lastAlertAt (cooldownKey host metric (severity metric v))).getD 0
      < ALERT_COOLDOWN_MS) :
    maybeAlert host now env metric (some v) s = (s, none) := by
  unfold maybeAlert
  by_cases hs : severity metric v = .OK
  · simp [hs]
  · simp only [hs, if_false, h, if_true]

theorem maybeAlert_emit (host : String) (now : Int) (env : Draw) (metric : Metric)
    (v : ℚ) (s : State) (hs : severity metric v ≠ .OK)
    (h : ALERT_COOLDOWN_MS
      ≤ now - (s.lastAlertAt (cooldownKey host metric (severity metric v))).getD 0) :
    maybeAlert host now env metric (some v) s =
      (⟨pushAlert (newAlert host now env metric v) s.alerts,
        Function.update s.lastAlertAt (cooldownKey host metric (severity metric v)) (some now)⟩,
       some (newAlert host now env metric v)) := by
  unfold maybeAlert
  simp only [hs, if_false, not_lt.mpr h]
  rfl

/-- Every call either changes nothing and emits nothing, or emits `newAlert`. -/
theorem maybeAlert_cases (host : String) (now : Int) (env : Draw) (metric : Metric)
    (value : Option ℚ) (s : State) :
    maybeAlert host now env metric value s = (s, none) ∨
    ∃ v, value = some v ∧ severity metric v ≠ .OK ∧
      ALERT_COOLDOWN_MS
        ≤ now - (s.lastAlertAt (cooldownKey host metric (severity metric v))).getD 0 ∧
      maybeAlert host now env metric value s =
        (⟨pushAlert (newAlert host now env metric v) s.alerts,
          Function.update s.lastAlertAt (cooldownKey host metric (severity metric v))
            (some now)⟩,
         some (newAlert host now env metric v)) := by
  cases value with
  | none => exact Or.inl rfl
  | some v =>
    by_cases hs : severity metric v = .OK
    · exact Or.inl (maybeAlert_ok host now env metric v s hs)
    · rcases lt_or_le (now - (s.lastAlertAt
          (cooldownKey host metric (severity metric v))).getD 0) ALERT_COOLDOWN_MS with h | h
      · exact Or.inl (maybeAlert_cooldown host now env metric v s h)
      · exact Or.inr ⟨v, rfl, hs, h, maybeAlert_emit host now env metric v s hs h⟩

/-! ## The bounded log -/

theorem take_append_take {α : Type} (n : Nat) (xs ys : List α) :
    (xs ++ ys.take n).take n = (xs ++ ys).take n := by
  rw [List.take_append_eq_append_take, List.take_append_eq_append_take, List.take_take]
  congr 2
  omega

theorem pushAlert_length_le (a : Alert) (prev : List Alert) :
    (pushAlert a prev).length ≤ 20 := by
  unfold pushAlert
  exact List.length_take_le 20 _

theorem foldl_pushAlert (xs : List Alert) :
    ∀ init : List Alert, init.length ≤ 20 →
      xs.foldl (fun log a => pushAlert a log) init = (xs.reverse ++ init).take 20 := by
  induction xs with
  | nil =>
    intro init h
    simp [List.take_of_length_le h]
  | cons x xs ih =>
    intro init _
    rw [List.foldl_cons, ih _ (pushAlert_length_le x init)]
    unfold pushAlert
    rw [take_append_take]
    simp

theorem ackAlert_length (id : String) (prev : List Alert) :
    (ackAlert id prev).length = prev.length := by
  simp [ackAlert]

theorem clearAcked_length_le (prev : List Alert) :
    (clearAcked prev).length ≤ prev.length := by
  unfold clearAcked
  exact List.length_filter_le _ _

theorem step_alerts_length (s : State) (e : Event) (h : s.alerts.length ≤ 20) :
    (step s e).1.alerts.length ≤ 20 := by
  cases e with
  | call host now env metric value =>
    rcases maybeAlert_cases host now env metric value s with h1 | ⟨v, _, _, _, h1⟩
    · simp only [step, h1]; exact h
    · simp only [step, h1]; exact pushAlert_length_le _ _
  | ack id => simp only [step, ackAlert_length]; exact h
  | clearAll => simp [step, clearAlerts]
  | clearAcked => exact le_trans (clearAcked_length_le _) h

theorem run_alerts_length (es : List Event) :
    ∀ s : State, s.alerts.length ≤ 20 → (run s es).alerts.length ≤ 20 := by
  induction es with
  | nil => intro s h; exact h
  | cons e es ih => intro s h; exact ih _ (step_alerts_length s e h)

/-- C5: inserting alerts one at a time into an empty log by the
prepend-and-slice(0, 20) update leaves exactly the min(n, 20) most recently
inserted alerts, newest first; no insertion leaves more than 20 records,
acknowledging and clearing never lengthen a log, and every reachable log has at
most 20 records. -/
theorem log_cap :
    (∀ xs : List Alert,
      xs.foldl (fun log a => pushAlert a log) [] = (xs.drop (xs.length - 20)).reverse ∧
      (xs.foldl (fun log a => pushAlert a log) []).length = min xs.length 20) ∧
    (∀ (a : Alert) (prev : List Alert), (pushAlert a prev).length ≤ 20) ∧
    (∀ (id : String) (prev : List Alert), (ackAlert id prev).length = prev.length) ∧
    (∀ prev : List Alert, (clearAlerts prev).length ≤ prev.length) ∧
    (∀ prev : List Alert, (clearAcked prev).length ≤ prev.length) ∧
    (∀ es : List Event, (run State.init es).alerts.length ≤ 20) := by
  refine ⟨fun xs => ?_, pushAlert_length_le, ackAlert_length, fun prev => by simp [clearAlerts],
    clearAcked_length_le, fun es => run_alerts_length es _ (by simp [State.init])⟩
  have h := foldl_pushAlert xs [] (by simp)
  rw [List.append_nil] at h
  constructor
  · rw [h, List.take_reverse]
  · rw [h, List.length_take, List.length_reverse, Nat.min_comm]

/-! ## Acknowledging and clearing -/

/-- C6: `ackAlert id` keeps the length and the order of the log, leaves every
record with another id as it is, changes a record with that id only in `ack`,
which becomes true, returns the log itself when no record has the id, gives the
same log when applied twice, and never turns an `ack` of true into false. -/
theorem ackAlert_frame (id : String) (log : List Alert) :
    (ackAlert id log).length = log.length ∧
    (∀ (i : Nat) (a : Alert), log[i]? = some a →
      (a.id ≠ id → (ackAlert id log)[i]? = some a) ∧
      (a.id = id → (ackAlert id log)[i]? = some { a with ack := true }) ∧
      (a.ack = true → ∃ b, (ackAlert id log)[i]? = some b ∧ b.ack = true)) ∧
    ((∀ a ∈ log, a.id ≠ id) → ackAlert id log = log) ∧
    ackAlert id (ackAlert id log) = ackAlert id log := by
  refine ⟨ackAlert_length id log, ?_, ?_, ?_⟩
  · intro i a ha
    have hget : (ackAlert id log)[i]? =
        some (if a.id = id then { a with ack := true } else a) := by
      simp [ackAlert, List.getElem?_map, ha]
    refine ⟨fun hne => by rw [hget, if_neg hne], fun heq => by rw [hget, if_pos heq], ?_⟩
    intro hack
    by_cases h : a.id = id
    · exact ⟨_, by rw [hget, if_pos h], rfl⟩
    · exact ⟨a, by rw [hget, if_neg h], hack⟩
  · intro h
    unfold ackAlert
    conv_rhs => rw [← List.map_id log]
    apply List.map_congr_left
    intro a ha
    simp [h a ha]
  · unfold ackAlert
    rw [List.map_map]
    apply List.map_congr_left
    intro a _
    by_cases h : a.id = id <;> simp [h]

/-- C7: `clearAcked` keeps exactly the unacknowledged records, unchanged, in
their original order and with their multiplicity; applying it again changes
nothing, and `activeCount` is the same before and after and is the length of
the result. -/
theorem clearAcked_spec (log : List Alert) :
    (clearAcked log).Sublist log ∧
    (∀ a, a ∈ clearAcked log ↔ a ∈ log ∧ a.ack = false) ∧
    (∀ a, a.ack = false → (clearAcked log).count a = log.count a) ∧
    clearAcked (clearAcked log) = clearAcked log ∧
    activeCount (clearAcked log) = activeCount log ∧
    activeCount log = (clearAcked log).length := by
  refine ⟨List.filter_sublist _, fun a => by simp [clearAcked], fun a ha => ?_,
    by simp [clearAcked], by simp [activeCount, clearAcked], rfl⟩
  unfold clearAcked
  rw [List.count_filter]
  simp [ha]

/-! ## One pass of the alerts effect -/

theorem maybeAlert_alerts (host : String) (now : Int) (env : Draw) (metric : Metric)
    (value : Option ℚ) (s : State) (hlen : s.alerts.length ≤ 20) :
    (maybeAlert host now env metric value s).1.alerts =
      ((maybeAlert host now env metric value s).2.toList.reverse ++ s.alerts).take 20 := by
  rcases maybeAlert_cases host now env metric value s with h | ⟨v, _, _, _, h⟩
  · rw [h]
    simp [List.take_of_length_le hlen]
  · rw [h]
    simp [pushAlert]

theorem maybeAlert_alerts_length (host : String) (now : Int) (env : Draw) (metric : Metric)
    (value : Option ℚ) (s : State) (hlen : s.alerts.length ≤ 20) :
    (maybeAlert host now env metric value s).1.alerts.length ≤ 20 :=
  step_alerts_length s (.call host now env metric value) hlen

theorem maybeAlert_metric (host : String) (now : Int) (env : Draw) (metric : Metric)
    (value : Option ℚ) (s : State) :
    (maybeAlert host now env metric value s).2.toList.map Alert.metric = [] ∨
    (maybeAlert host now env metric value s).2.toList.map Alert.metric = [metric] := by
  rcases maybeAlert_cases host now env metric value s with h | ⟨v, _, _, _, h⟩
  · rw [h]; exact Or.inl rfl
  · rw [h]; exact Or.inr rfl

theorem evaluate_alerts (host : String) (now : Int) (env : Metric → Draw) (smp : Sample)
    (s : State) (hlen : s.alerts.length ≤ 20) :
    (evaluate host now env smp s).1.alerts =
      ((evaluate host now env smp s).2.reverse ++ s.alerts).take 20 := by
  unfold evaluate
  have h1 := maybeAlert_alerts host now (env .cpu) .cpu smp.cpu s hlen
  have l1 := maybeAlert_alerts_length host now (env .cpu) .cpu smp.cpu s hlen
  have h2 := maybeAlert_alerts host now (env .mem) .mem smp.mem _ l1
  have l2 := maybeAlert_alerts_length host now (env .mem) .mem smp.mem _ l1
  have h3 := maybeAlert_alerts host now (env .disk) .disk smp.disk _ l2
  simp only []
  rw [h3, h2, h1, take_append_take, ← List.append_assoc, take_append_take]
  simp [List.append_assoc]

theorem evaluate_metrics (host : String) (now : Int) (env : Metric → Draw) (smp : Sample)
    (s : State) :
    ((evaluate host now env smp s).2.map Alert.metric).Sublist [.cpu, .mem, .disk] := by
  unfold evaluate
  simp only [List.map_append]
  rcases maybeAlert_metric host now (env .cpu) .cpu smp.cpu s with h1 | h1 <;>
  rcases maybeAlert_metric host now (env .mem) .mem smp.mem
    (maybeAlert host now (env .cpu) .cpu smp.cpu s).1 with h2 | h2 <;>
  rcases maybeAlert_metric host now (env .disk) .disk smp.disk
    (maybeAlert host now (env .mem) .mem smp.mem
      (maybeAlert host now (env .cpu) .cpu smp.cpu s).1).1 with h3 | h3 <;>
  rw [h1, h2, h3] <;> decide

/-- C10: for a log of at most 20 records, the log after a pass of the alerts
effect (one prepend-and-slice(0, 20) per emitted alert, in the order cpu, mem,
disk) is the alerts emitted in the pass in reverse emission order (disk, mem,
cpu) followed by the old log, truncated once to 20 records; the old records
keep their order and only the oldest are dropped. -/
theorem pass_log_refinement (host : String) (latest : Option Sample) (now : Int)
    (env : Metric → Draw) (s : State) (hlen : s.alerts.length ≤ 20) :
    ((alertsEffect host latest now env s).2.map Alert.metric).Sublist [.cpu, .mem, .disk] ∧
    (alertsEffect host latest now env s).1.alerts =
      ((alertsEffect host latest now env s).2.reverse ++ s.alerts).take 20 ∧
    (alertsEffect host latest now env s).1.alerts =
      (alertsEffect host latest now env s).2.reverse
        ++ s.alerts.take (20 - (alertsEffect host latest now env s).2.length) := by
  have hmain : ((alertsEffect host latest now env s).2.map Alert.metric).Sublist
        [.cpu, .mem, .disk] ∧
      (alertsEffect host latest now env s).1.alerts =
        ((alertsEffect host latest now env s).2.reverse ++ s.alerts).take 20 := by
    unfold alertsEffect
    cases latest with
    | none => simp [List.take_of_length_le hlen]
    | some smp =>
      by_cases hh : host = ""
      · simp [hh, List.take_of_length_le hlen]
      · simp only [hh, if_false]
        exact ⟨evaluate_metrics host now env smp s, evaluate_alerts host now env smp s hlen⟩
  refine ⟨hmain.1, hmain.2, ?_⟩
  rw [hmain.2, List.take_append_eq_append_take, List.length_reverse]
  congr 1
  apply List.take_of_length_le
  have h3 := hmain.1.length_le
  simp only [List.length_map, List.length_cons, List.length_nil] at h3
  rw [List.length_reverse]
  omega

/-- The hypothesis of `pass_log_refinement` holds for a log of 20 records and a
pass that emits a CRITICAL cpu alert. -/
theorem pass_log_refinement_witness :
    (List.replicate 20 (newAlert "h0" 1 ⟨"a", "t"⟩ .cpu 99)).length ≤ 20 ∧
    (alertsEffect "h1" (some ⟨some 81, none, none⟩) 30000 (fun _ => ⟨"8", "T"⟩)
      ⟨List.replicate 20 (newAlert "h0" 1 ⟨"a", "t"⟩ .cpu 99), fun _ => none⟩).1.alerts =
      ((alertsEffect "h1" (some ⟨some 81, none, none⟩) 30000 (fun _ => ⟨"8", "T"⟩)
        ⟨List.replicate 20 (newAlert "h0" 1 ⟨"a", "t"⟩ .cpu 99), fun _ => none⟩).2.reverse
        ++ List.replicate 20 (newAlert "h0" 1 ⟨"a", "t"⟩ .cpu 99)).take 20 :=
  ⟨by simp, (pass_log_refinement "h1" (some ⟨some 81, none, none⟩) 30000 (fun _ => ⟨"8", "T"⟩)
    ⟨List.replicate 20 (newAlert "h0" 1 ⟨"a", "t"⟩ .cpu 99), fun _ => none⟩ (by simp)).2.1⟩

/-! ## The cooldown key determines host, metric and level -/

theorem level_suffix_inj (X Y : List Char) (l k : Level)
    (h : X ++ l.name.data = Y ++ k.name.data) : X = Y ∧ l = k := by
  have hr := congrArg List.reverse h
  cases l <;> cases k <;>
    simp [Level.name, List.reverse_append] at hr <;> simp [hr]

theorem metric_suffix_inj (X Y : List Char) (m n : Metric)
    (h : X ++ m.name.data = Y ++ n.name.data) : X = Y ∧ m = n := by
  have hr := congrArg List.reverse h
  cases m <;> cases n <;>
    simp [Metric.name, List.reverse_append] at hr <;> simp [hr]

theorem cooldownKey_data (host : String) (metric : Metric) (level : Level) :
    (cooldownKey host metric level).data =
      (((host.data ++ [':']) ++ metric.name.data) ++ [':']) ++ level.name.data := by
  simp [cooldownKey, String.data_append]

theorem cooldownKey_injective (h h' : String) (m m' : Metric) (l l' : Level)
    (hk : cooldownKey h m l = cooldownKey h' m' l') : h = h' ∧ m = m' ∧ l = l' := by
  have hd := congrArg String.data hk
  rw [cooldownKey_data, cooldownKey_data] at hd
  obtain ⟨h1, hl⟩ := level_suffix_inj _ _ _ _ hd
  have h2 := List.append_cancel_right h1
  obtain ⟨h3, hm⟩ := metric_suffix_inj _ _ _ _ h2
  have h4 := List.append_cancel_right h3
  exact ⟨String.ext h4, hm, hl⟩

/-! ## The cooldown table along a run -/

/-- An event either emits nothing and leaves the cooldown table alone, or is an
emitting `maybeAlert` call. -/
theorem step_cases (s : State) (e : Event) :
    ((step s e).2 = none ∧ (step s e).1.lastAlertAt = s.lastAlertAt) ∨
    ∃ host now env metric v, e = .call host now env metric (some v) ∧
      severity metric v ≠ .OK ∧
      ALERT_COOLDOWN_MS
        ≤ now - (s.lastAlertAt (cooldownKey host metric (severity metric v))).getD 0 ∧
      step s e =
        (⟨pushAlert (newAlert host now env metric v) s.alerts,
          Function.update s.lastAlertAt (cooldownKey host metric (severity metric v))
            (some now)⟩,
         some ⟨now, env.random, newAlert host now env metric v⟩) := by
  cases e with
  | call host now env metric value =>
    rcases maybeAlert_cases host now env metric value s with h | ⟨v, hv, hs, hg, h⟩
    · left
      simp [step, h]
    · right
      subst hv
      exact ⟨host, now, env, metric, v, rfl, hs, hg, by simp [step, h]⟩
  | ack id => exact Or.inl ⟨rfl, rfl⟩
  | clearAll => exact Or.inl ⟨rfl, rfl⟩
  | clearAcked => exact Or.inl ⟨rfl, rfl⟩

theorem step_lastAt_mono (s : State) (e : Event) (k : String) :
    (s.lastAlertAt k).getD 0 ≤ ((step s e).1.lastAlertAt k).getD 0 := by
  rcases step_cases s e with ⟨_, h⟩ | ⟨host, now, env, metric, v, _, _, hg, h⟩
  · rw [h]
  · rw [h]
    simp only [Function.update_apply]
    by_cases hk : k = cooldownKey host metric (severity metric v)
    · subst hk
      simp only [if_true, Option.getD_some]
      unfold ALERT_COOLDOWN_MS at hg
      omega
    · simp only [hk, if_false, le_refl]

theorem run_lastAt_mono (es : List Event) (k : String) :
    ∀ s : State, (s.lastAlertAt k).getD 0 ≤ ((run s es).lastAlertAt k).getD 0 := by
  induction es with
  | nil => intro s; exact le_refl _
  | cons e es ih => intro s; exact le_trans (step_lastAt_mono s e k) (ih _)

/-- Every emission of a run happens at least a cooldown window after the entry
its key had when the run started. -/
theorem emissions_after_entry (es : List Event) :
    ∀ (s : State) (y : Emission), y ∈ emissions s es →
      (s.lastAlertAt (cooldownKey y.alert.host y.alert.metric y.alert.level)).getD 0 + 30000
        ≤ y.now := by
  induction es with
  | nil => intro s y hy; simp [emissions] at hy
  | cons e es ih =>
    intro s y hy
    simp only [emissions, List.mem_append] at hy
    rcases hy with hy | hy
    · rcases step_cases s e with ⟨h, _⟩ | ⟨host, now, env, metric, v, _, _, hg, h⟩
      · rw [h] at hy; simp at hy
      · rw [h] at hy
        simp only [Option.toList, List.mem_singleton] at hy
        subst hy
        unfold ALERT_COOLDOWN_MS at hg
        simp only [newAlert]
        omega
    · exact le_trans (add_le_add_right (step_lastAt_mono s e _) _) (ih _ y hy)

/-- After an emission the entry of its key is the emission time. -/
theorem step_emission_entry (s : State) (e : Event) (x : Emission)
    (hx : (step s e).2 = some x) :
    (step s e).1.lastAlertAt (cooldownKey x.alert.host x.alert.metric x.alert.level)
      = some x.now := by
  rcases step_cases s e with ⟨h, _⟩ | ⟨host, now, env, metric, v, _, _, _, h⟩
  · rw [h] at hx; cases hx
  · rw [h] at hx ⊢
    simp only [Option.some.injEq] at hx
    subst hx
    simp [newAlert]

/-- C4: in every finite sequence of evaluations (any hosts, samples and times,
in any order, with acknowledgements and clears in between, from the empty
cooldown table or any other), two alerts emitted for the same key (host,
metric, level) are at least 30000 ms apart, the later emission being the one
with the later time; and in every reachable state an emission happens only at
a time at least 30000 ms after the entry recorded for its key. -/
theorem cooldown_spacing (s : State) (es : List Event) :
    (emissions s es).Pairwise (fun x y =>
      x.alert.host = y.alert.host → x.alert.metric = y.alert.metric →
      x.alert.level = y.alert.level → x.now + 30000 ≤ y.now) ∧
    (∀ host now env metric v a,
      (maybeAlert host now env metric (some v) (run s es)).2 = some a →
      ((run s es).lastAlertAt (cooldownKey host metric (severity metric v))).getD 0 + 30000
        ≤ now) := by
  constructor
  · induction es generalizing s with
    | nil => simp [emissions]
    | cons e es ih =>
      simp only [emissions]
      rw [List.pairwise_append]
      refine ⟨?_, ih _, ?_⟩
      · cases (step s e).2 <;> simp
      · intro x hx y hy h1 h2 h3
        have hx2 : (step s e).2 = some x := by
          cases hopt : (step s e).2 with
          | none => rw [hopt] at hx; simp at hx
          | some z =>
            rw [hopt] at hx
            simp only [Option.toList, List.mem_singleton] at hx
            rw [hx]
        have hent := step_emission_entry s e x hx2
        have hy2 := emissions_after_entry es _ y hy
        rw [← h1, ← h2, ← h3, hent] at hy2
        simpa using hy2
  · intro host now env metric v a ha
    rcases maybeAlert_cases host now env metric (some v) (run s es) with
      h | ⟨w, hw, _, hg, _⟩
    · rw [h] at ha; cases ha
    · cases hw
      unfold ALERT_COOLDOWN_MS at hg
      omega

/-- An event that does not evaluate the key `(host, metric, level)` at or after
`t + 30000` leaves an entry `t` of that key in place. -/
theorem step_entry_stays (s : State) (e : Event) (host : String) (metric : Metric)
    (level : Level) (t : Int)
    (hent : s.lastAlertAt (cooldownKey host metric level) = some t)
    (hno : ¬ e.evaluates host metric level (t + 30000)) :
    (step s e).1.lastAlertAt (cooldownKey host metric level) = some t := by
  rcases step_cases s e with ⟨_, h⟩ | ⟨h', now, env, m', v, he, _, hg, h⟩
  · rw [h]; exact hent
  · rw [h]
    simp only [Function.update_apply]
    by_cases hk : cooldownKey host metric level = cooldownKey h' m' (severity m' v)
    · exfalso
      obtain ⟨e1, e2, e3⟩ := cooldownKey_injective _ _ _ _ _ _ hk
      apply hno
      subst he
      rw [← hk, hent] at hg
      simp only [Option.getD_some] at hg
      unfold ALERT_COOLDOWN_MS at hg
      exact ⟨e1.symm, e2.symm, e3.symm, by omega⟩
    · simp only [hk, if_false]
      exact hent

theorem run_entry_stays (es : List Event) (host : String) (metric : Metric)
    (level : Level) (t : Int) :
    ∀ s : State, s.lastAlertAt (cooldownKey host metric level) = some t →
      (∀ e ∈ es, ¬ e.evaluates host metric level (t + 30000)) →
      (run s es).lastAlertAt (cooldownKey host metric level) = some t := by
  induction es with
  | nil => intro s h _; exact h
  | cons e es ih =>
    intro s h hno
    exact ih _ (step_entry_stays s e host metric level t h (hno e (List.mem_cons_self _ _)))
      (fun e' he' => hno e' (List.mem_cons_of_mem _ he'))

/-- C2: after a `maybeAlert` call at time `t` has emitted an alert for the key
(host, metric, level), and after any further events, a call with the same key
at a time `t + d` with `0 ≤ d ≤ 29999` emits nothing and changes neither the
log nor the cooldown table; and a call with the same key at a time `t + d`
with `d ≥ 30000`, when no call in between evaluated that key at or after
`t + 30000`, emits a new alert, puts it on the log and sets the entry of the
key to `t + d`. -/
theorem cooldown_window (host : String) (t : Int) (env : Draw) (metric : Metric) (v : ℚ)
    (s : State) (a : Alert)
    (hemit : (maybeAlert host t env metric (some v) s).2 = some a)
    (es : List Event) (d : Int) (env' : Draw) (w : ℚ)
    (hkey : severity metric w = severity metric v) :
    (0 ≤ d → d ≤ 29999 →
      maybeAlert host (t + d) env' metric (some w)
          (run (maybeAlert host t env metric (some v) s).1 es)
        = (run (maybeAlert host t env metric (some v) s).1 es, none)) ∧
    (30000 ≤ d →
      (∀ e ∈ es, ¬ e.evaluates host metric (severity metric v) (t + 30000)) →
      maybeAlert host (t + d) env' metric (some w)
          (run (maybeAlert host t env metric (some v) s).1 es)
        = (⟨pushAlert (newAlert host (t + d) env' metric w)
              (run (maybeAlert host t env metric (some v) s).1 es).alerts,
            Function.update (run (maybeAlert host t env metric (some v) s).1 es).lastAlertAt
              (cooldownKey host metric (severity metric v)) (some (t + d))⟩,
           some (newAlert host (t + d) env' metric w))) := by
  rcases maybeAlert_cases host t env metric (some v) s with h | ⟨v', hv, hs, _, h⟩
  · rw [h] at hemit; cases hemit
  cases hv
  have hent : (maybeAlert host t env metric (some v) s).1.lastAlertAt
      (cooldownKey host metric (severity metric v)) = some t := by
    rw [h]; simp
  constructor
  · intro _ hd
    apply maybeAlert_cooldown
    rw [hkey]
    have hmono := run_lastAt_mono es (cooldownKey host metric (severity metric v))
      (maybeAlert host t env metric (some v) s).1
    rw [hent] at hmono
    simp only [Option.getD_some] at hmono
    unfold ALERT_COOLDOWN_MS
    omega
  · intro hd hno
    have hstay := run_entry_stays es host metric (severity metric v) t _ hent hno
    have := maybeAlert_emit host (t + d) env' metric w
      (run (maybeAlert host t env metric (some v) s).1 es) (by rw [hkey]; exact hs)
      (by rw [hkey, hstay]; simp only [Option.getD_some]; unfold ALERT_COOLDOWN_MS; omega)
    rw [this, hkey]

theorem severity_cpu_85 : severity .cpu 85 = .CRITICAL := by
  norm_num [severity, THRESHOLDS]

theorem severity_cpu_90 : severity .cpu 90 = .CRITICAL := by
  norm_num [severity, THRESHOLDS]

/-- The hypotheses of `cooldown_window` hold for a CRITICAL cpu alert of host
"h1" emitted at time 30000 from the initial state: after a mem evaluation and an
acknowledgement, a cpu value of 90 is suppressed at 35000 and alerts at 60000. -/
theorem cooldown_window_witness :
    (maybeAlert "h1" 30000 ⟨"8", "T0"⟩ .cpu (some 85) State.init).2
      = some (newAlert "h1" 30000 ⟨"8", "T0"⟩ .cpu 85) ∧
    severity .cpu 90 = severity .cpu 85 ∧
    maybeAlert "h1" (30000 + 5000) ⟨"9", "T1"⟩ .cpu (some 90)
        (run (maybeAlert "h1" 30000 ⟨"8", "T0"⟩ .cpu (some 85) State.init).1
          [.call "h1" 31000 ⟨"a", "T2"⟩ .mem (some 95), .ack "30000-8"])
      = (run (maybeAlert "h1" 30000 ⟨"8", "T0"⟩ .cpu (some 85) State.init).1
          [.call "h1" 31000 ⟨"a", "T2"⟩ .mem (some 95), .ack "30000-8"], none) ∧
    (maybeAlert "h1" (30000 + 30000) ⟨"9", "T1"⟩ .cpu (some 90)
        (run (maybeAlert "h1" 30000 ⟨"8", "T0"⟩ .cpu (some 85) State.init).1
          [.call "h1" 31000 ⟨"a", "T2"⟩ .mem (some 95), .ack "30000-8"])).2
      = some (newAlert "h1" (30000 + 30000) ⟨"9", "T1"⟩ .cpu 90) :=
  have hemit : (maybeAlert "h1" 30000 ⟨"8", "T0"⟩ .cpu (some 85) State.init).2
      = some (newAlert "h1" 30000 ⟨"8", "T0"⟩ .cpu 85) := by
    rw [maybeAlert_emit _ _ _ _ _ _ (by rw [severity_cpu_85]; decide)
      (by simp [State.init, ALERT_COOLDOWN_MS])]
  have hkey : severity .cpu 90 = severity .cpu 85 := by
    rw [severity_cpu_85, severity_cpu_90]
  ⟨hemit, hkey,
    (cooldown_window "h1" 30000 ⟨"8", "T0"⟩ .cpu 85 State.init _ hemit
      [.call "h1" 31000 ⟨"a", "T2"⟩ .mem (some 95), .ack "30000-8"] 5000 ⟨"9", "T1"⟩ 90
      hkey).1 (by decide) (by decide),
    by
      rw [(cooldown_window "h1" 30000 ⟨"8", "T0"⟩ .cpu 85 State.init _ hemit
        [.call "h1" 31000 ⟨"a", "T2"⟩ .mem (some 95), .ack "30000-8"] 30000 ⟨"9", "T1"⟩ 90
        hkey).2 (by decide) (by simp [Event.evaluates])]⟩

/-! ## The first alert of a key -/

theorem severity_cpu_81 : severity .cpu 81 = .CRITICAL := by
  norm_num [severity, THRESHOLDS]

theorem severity_mem_50 : severity .mem 50 = .OK := by
  norm_num [severity, THRESHOLDS]

theorem severity_disk_40 : severity .disk 40 = .OK := by
  norm_num [severity, THRESHOLDS]

theorem alertMessage_cpu_81 :
    alertMessage .cpu 81 .CRITICAL = "CPU crossed threshold (81.0% ≥ 80%)" := by
  norm_num [alertMessage, pct, toFixed1, THRESHOLDS]
  rfl

theorem newAlert_cpu_81 (now : Int) (env : Draw) :
    newAlert "h1" now env .cpu 81 =
      ⟨toString now ++ "-" ++ env.random, env.iso, "h1", .cpu, 81, .CRITICAL,
        "CPU crossed threshold (81.0% ≥ 80%)", false⟩ := by
  simp only [newAlert, severity_cpu_81, alertMessage_cpu_81]

/-- C3, as the code has it at time 0: the cpu value 81 is CRITICAL and its key
has no entry in the empty cooldown table, yet the evaluation at `now = 0`
emits nothing and leaves the log empty, and the two passes with cpu = 85 at
`now = 0` and `now = 5000` emit no alert at all. -/
theorem first_alert_at_zero_counterexample :
    severity .cpu 81 = .CRITICAL ∧
    State.init.lastAlertAt (cooldownKey "h1" .cpu .CRITICAL) = none ∧
    (maybeAlert "h1" 0 ⟨"8", "T"⟩ .cpu (some 81) State.init).2 = none ∧
    (alertsEffect "h1" (some ⟨some 81, some 50, some 40⟩) 0 (fun _ => ⟨"8", "T"⟩)
      State.init).1.alerts = [] ∧
    (alertsEffect "h1" (some ⟨some 85, some 50, some 40⟩) 0 (fun _ => ⟨"8", "T"⟩)
      State.init).2 ++
    (alertsEffect "h1" (some ⟨some 85, some 50, some 40⟩) 5000 (fun _ => ⟨"9", "U"⟩)
      (alertsEffect "h1" (some ⟨some 85, some 50, some 40⟩) 0 (fun _ => ⟨"8", "T"⟩)
        State.init).1).2 = [] := by
  have hcool : ∀ (now : Int) (env : Draw) (v : ℚ), now < 30000 →
      maybeAlert "h1" now env .cpu (some v) State.init = (State.init, none) := by
    intro now env v hnow
    apply maybeAlert_cooldown
    simp only [State.init, Option.getD_none, ALERT_COOLDOWN_MS]
    omega
  have hmem : ∀ (now : Int) (env : Draw) (s : State),
      maybeAlert "h1" now env .mem (some 50) s = (s, none) :=
    fun now env s => maybeAlert_ok _ _ _ _ _ _ severity_mem_50
  have hdisk : ∀ (now : Int) (env : Draw) (s : State),
      maybeAlert "h1" now env .disk (some 40) s = (s, none) :=
    fun now env s => maybeAlert_ok _ _ _ _ _ _ severity_disk_40
  have hh : ¬ ("h1" = "") := by decide
  refine ⟨severity_cpu_81, rfl, ?_, ?_, ?_⟩
  · rw [hcool 0 _ _ (by decide)]
  · simp only [alertsEffect, evaluate, hh, if_false, hcool 0 _ _ (by decide), hmem, hdisk]
    rfl
  · simp only [alertsEffect, evaluate, hh, if_false, hcool 0 _ _ (by decide),
      hcool 5000 _ _ (by decide), hmem, hdisk]
    rfl

/-- C3, amended: at every time `now ≥ 30000` an alerting value whose key has no
entry in the cooldown table emits an alert; from the empty table and the empty
log, the pass over `{cpu: 81, mem: 50, disk: 40}` for host "h1" at such a time
leaves exactly one record, CRITICAL, cpu, value 81, unacknowledged, with the
message "CPU crossed threshold (81.0% ≥ 80%)"; and two passes with cpu = 85 at
`now` and `now + 5000` emit exactly one alert in total. -/
theorem first_alert_after_window (host : String) (now : Int) (env : Draw) (metric : Metric)
    (v : ℚ) (s : State) (hnow : 30000 ≤ now) (hsev : severity metric v ≠ .OK)
    (hnone : s.lastAlertAt (cooldownKey host metric (severity metric v)) = none) :
    maybeAlert host now env metric (some v) s =
      (⟨pushAlert (newAlert host now env metric v) s.alerts,
        Function.update s.lastAlertAt (cooldownKey host metric (severity metric v))
          (some now)⟩,
       some (newAlert host now env metric v)) ∧
    (∀ envs : Metric → Draw,
      (alertsEffect "h1" (some ⟨some 81, some 50, some 40⟩) now envs State.init).1.alerts =
        [⟨toString now ++ "-" ++ (envs .cpu).random, (envs .cpu).iso, "h1", .cpu, 81,
          .CRITICAL, "CPU crossed threshold (81.0% ≥ 80%)", false⟩]) ∧
    (∀ envs envs' : Metric → Draw,
      ((alertsEffect "h1" (some ⟨some 85, some 50, some 40⟩) now envs State.init).2 ++
        (alertsEffect "h1" (some ⟨some 85, some 50, some 40⟩) (now + 5000) envs'
          (alertsEffect "h1" (some ⟨some 85, some 50, some 40⟩) now envs
            State.init).1).2).length = 1 ∧
      (alertsEffect "h1" (some ⟨some 85, some 50, some 40⟩) (now + 5000) envs'
          (alertsEffect "h1" (some ⟨some 85, some 50, some 40⟩) now envs
            State.init).1).1.alerts.length = 1) := by
  have hemit : ∀ (e : Draw) (w : ℚ), severity .cpu w = .CRITICAL →
      maybeAlert "h1" now e .cpu (some w) State.init =
        (⟨pushAlert (newAlert "h1" now e .cpu w) [],
          Function.update (fun _ => none) (cooldownKey "h1" .cpu .CRITICAL) (some now)⟩,
         some (newAlert "h1" now e .cpu w)) := by
    intro e w hw
    have := maybeAlert_emit "h1" now e .cpu w State.init (by rw [hw]; decide)
      (by simp only [State.init, Option.getD_none, ALERT_COOLDOWN_MS]; omega)
    rw [this, hw]
    rfl
  have hmem : ∀ (t : Int) (e : Draw) (s : State),
      maybeAlert "h1" t e .mem (some 50) s = (s, none) :=
    fun t e s => maybeAlert_ok _ _ _ _ _ _ severity_mem_50
  have hdisk : ∀ (t : Int) (e : Draw) (s : State),
      maybeAlert "h1" t e .disk (some 40) s = (s, none) :=
    fun t e s => maybeAlert_ok _ _ _ _ _ _ severity_disk_40
  have hh : ¬ ("h1" = "") := by decide
  refine ⟨?_, ?_, ?_⟩
  · apply maybeAlert_emit _ _ _ _ _ _ hsev
    rw [hnone]
    simp only [Option.getD_none, ALERT_COOLDOWN_MS]
    omega
  · intro envs
    simp only [alertsEffect, evaluate, hh, if_false, hemit _ _ severity_cpu_81, hmem, hdisk,
      newAlert_cpu_81]
    rfl
  · intro envs envs'
    have hsup : maybeAlert "h1" (now + 5000) (envs' .cpu) .cpu (some 85)
        ⟨pushAlert (newAlert "h1" now (envs .cpu) .cpu 85) [],
          Function.update (fun _ => none) (cooldownKey "h1" .cpu .CRITICAL) (some now)⟩ =
        (⟨pushAlert (newAlert "h1" now (envs .cpu) .cpu 85) [],
          Function.update (fun _ => none) (cooldownKey "h1" .cpu .CRITICAL) (some now)⟩,
         none) := by
      apply maybeAlert_cooldown
      rw [severity_cpu_85]
      simp only [Function.update_same, Option.getD_some, ALERT_COOLDOWN_MS]
      omega
    simp only [alertsEffect, evaluate, hh, if_false, hemit _ _ severity_cpu_85, hmem, hdisk,
      hsup]
    exact ⟨rfl, rfl⟩

/-- The hypotheses of `first_alert_after_window` hold at `now = 30000` for the
CRITICAL cpu value 81 of host "h1" in the initial state. -/
theorem first_alert_after_window_witness :
    (30000 : Int) ≤ 30000 ∧ severity .cpu 81 ≠ .OK ∧
    State.init.lastAlertAt (cooldownKey "h1" .cpu (severity .cpu 81)) = none ∧
    (alertsEffect "h1" (some ⟨some 81, some 50, some 40⟩) 30000 (fun _ => ⟨"8", "T"⟩)
      State.init).1.alerts =
        [⟨"30000-8", "T", "h1", .cpu, 81, .CRITICAL,
          "CPU crossed threshold (81.0% ≥ 80%)", false⟩] :=
  ⟨by decide, by rw [severity_cpu_81]; decide, rfl,
    (first_alert_after_window "h1" 30000 ⟨"8", "T"⟩ .cpu 81 State.init (by decide)
      (by rw [severity_cpu_81]; decide) rfl).2.1 (fun _ => ⟨"8", "T"⟩)⟩

/-! ## Absent values -/

theorem severity_mem_95 : severity .mem 95 = .CRITICAL := by
  norm_num [severity, THRESHOLDS]

theorem severity_disk_50 : severity .disk 50 = .OK := by
  norm_num [severity, THRESHOLDS]

theorem alertMessage_mem_95 :
    alertMessage .mem 95 .CRITICAL = "MEM crossed threshold (95.0% ≥ 90%)" := by
  norm_num [alertMessage, pct, toFixed1, THRESHOLDS]
  rfl

/-- A call for one metric never touches an entry of another metric. -/
theorem maybeAlert_lastAt_other (host : String) (now : Int) (env : Draw) (metric : Metric)
    (value : Option ℚ) (s : State) (h : String) (m : Metric) (l : Level) (hm : metric ≠ m) :
    (maybeAlert host now env metric value s).1.lastAlertAt (cooldownKey h m l)
      = s.lastAlertAt (cooldownKey h m l) := by
  rcases maybeAlert_cases host now env metric value s with hr | ⟨v, _, _, _, hr⟩
  · rw [hr]
  · rw [hr]
    simp only [Function.update_apply]
    rw [if_neg]
    intro hk
    exact hm (cooldownKey_injective _ _ _ _ _ _ hk).2.1.symm

/-- An emitted alert carries the metric of the call. -/
theorem maybeAlert_emitted_metric (host : String) (now : Int) (env : Draw) (metric : Metric)
    (value : Option ℚ) (s : State) (a : Alert)
    (ha : a ∈ (maybeAlert host now env metric value s).2.toList) :
    a.metric = metric ∧ value ≠ none := by
  rcases maybeAlert_cases host now env metric value s with hr | ⟨v, hv, _, _, hr⟩
  · rw [hr] at ha; simp at ha
  · rw [hr] at ha
    simp only [Option.toList, List.mem_singleton] at ha
    subst ha
    subst hv
    exact ⟨rfl, by simp⟩

theorem evaluate_absent (host : String) (now : Int) (env : Metric → Draw) (smp : Sample)
    (s : State) (m : Metric) (hm : smp.get m = none) :
    (∀ a ∈ (evaluate host now env smp s).2, a.metric ≠ m) ∧
    (∀ h l, (evaluate host now env smp s).1.lastAlertAt (cooldownKey h m l)
      = s.lastAlertAt (cooldownKey h m l)) := by
  constructor
  · intro a ha hma
    simp only [evaluate, List.mem_append] at ha
    rcases ha with (ha | ha) | ha <;>
      obtain ⟨h1, h2⟩ := maybeAlert_emitted_metric _ _ _ _ _ _ _ ha <;>
      rw [hma] at h1 <;> subst h1 <;> exact h2 hm
  · intro h l
    cases m with
    | cpu =>
      simp only [Sample.get] at hm
      simp only [evaluate, hm, maybeAlert_none]
      rw [maybeAlert_lastAt_other _ _ _ _ _ _ _ _ _ (by decide),
        maybeAlert_lastAt_other _ _ _ _ _ _ _ _ _ (by decide)]
    | mem =>
      simp only [Sample.get] at hm
      simp only [evaluate, hm, maybeAlert_none]
      rw [maybeAlert_lastAt_other _ _ _ _ _ _ _ _ _ (by decide),
        maybeAlert_lastAt_other _ _ _ _ _ _ _ _ _ (by decide)]
    | disk =>
      simp only [Sample.get] at hm
      simp only [evaluate, hm, maybeAlert_none]
      rw [maybeAlert_lastAt_other _ _ _ _ _ _ _ _ _ (by decide),
        maybeAlert_lastAt_other _ _ _ _ _ _ _ _ _ (by decide)]

/-- C8: for every host, time and state, a metric whose value is absent is
skipped: the pass emits no alert for it, leaves every cooldown entry of that
metric as it was, and its result is that of the calls for the other two
metrics alone; and for the sample with cpu absent, mem = 95 and disk = 50,
evaluated when the (host, mem, CRITICAL) key is not in cooldown, exactly one
alert is added, a CRITICAL mem alert, and no cooldown entry of cpu is created
or changed. -/
theorem absent_metric_skipped (host : String) (now : Int) (env : Metric → Draw) (s : State) :
    (∀ (smp : Sample) (m : Metric), smp.get m = none →
      (∀ a ∈ (evaluate host now env smp s).2, a.metric ≠ m) ∧
      (∀ h l, (evaluate host now env smp s).1.lastAlertAt (cooldownKey h m l)
        = s.lastAlertAt (cooldownKey h m l))) ∧
    (∀ (smp : Sample) (m : Metric), smp.get m = none →
      (∀ a ∈ (alertsEffect host (some smp) now env s).2, a.metric ≠ m) ∧
      (∀ h l, (alertsEffect host (some smp) now env s).1.lastAlertAt (cooldownKey h m l)
        = s.lastAlertAt (cooldownKey h m l))) ∧
    (∀ smp : Sample, smp.cpu = none → evaluate host now env smp s =
      ((maybeAlert host now (env .disk) .disk smp.disk
          (maybeAlert host now (env .mem) .mem smp.mem s).1).1,
        (maybeAlert host now (env .mem) .mem smp.mem s).2.toList ++
        (maybeAlert host now (env .disk) .disk smp.disk
          (maybeAlert host now (env .mem) .mem smp.mem s).1).2.toList)) ∧
    (∀ smp : Sample, smp.mem = none → evaluate host now env smp s =
      ((maybeAlert host now (env .disk) .disk smp.disk
          (maybeAlert host now (env .cpu) .cpu smp.cpu s).1).1,
        (maybeAlert host now (env .cpu) .cpu smp.cpu s).2.toList ++
        (maybeAlert host now (env .disk) .disk smp.disk
          (maybeAlert host now (env .cpu) .cpu smp.cpu s).1).2.toList)) ∧
    (∀ smp : Sample, smp.disk = none → evaluate host now env smp s =
      ((maybeAlert host now (env .mem) .mem smp.mem
          (maybeAlert host now (env .cpu) .cpu smp.cpu s).1).1,
        (maybeAlert host now (env .cpu) .cpu smp.cpu s).2.toList ++
        (maybeAlert host now (env .mem) .mem smp.mem
          (maybeAlert host now (env .cpu) .cpu smp.cpu s).1).2.toList)) ∧
    (host ≠ "" → alertsEffect host (some ⟨none, some 95, some 50⟩) now env s =
      evaluate host now env ⟨none, some 95, some 50⟩ s) ∧
    (∀ h l, (evaluate host now env ⟨none, some 95, some 50⟩ s).1.lastAlertAt
        (cooldownKey h .cpu l) = s.lastAlertAt (cooldownKey h .cpu l)) ∧
    (ALERT_COOLDOWN_MS ≤ now - (s.lastAlertAt (cooldownKey host .mem .CRITICAL)).getD 0 →
      evaluate host now env ⟨none, some 95, some 50⟩ s =
        (⟨pushAlert ⟨toString now ++ "-" ++ (env .mem).random, (env .mem).iso, host, .mem,
              95, .CRITICAL, "MEM crossed threshold (95.0% ≥ 90%)", false⟩ s.alerts,
            Function.update s.lastAlertAt (cooldownKey host .mem .CRITICAL) (some now)⟩,
          [⟨toString now ++ "-" ++ (env .mem).random, (env .mem).iso, host, .mem, 95,
              .CRITICAL, "MEM crossed threshold (95.0% ≥ 90%)", false⟩])) := by
  refine ⟨?_, ?_, ?_, ?_, ?_, ?_, ?_, ?_⟩
  · intro smp m hm
    exact evaluate_absent host now env smp s m hm
  · intro smp m hm
    unfold alertsEffect
    by_cases hh : host = ""
    · simp [hh]
    · simp only [hh, if_false]
      exact evaluate_absent host now env smp s m hm
  · intro smp h
    simp only [evaluate, h, maybeAlert_none, Option.toList, List.nil_append]
  · intro smp h
    simp only [evaluate, h, maybeAlert_none, Option.toList, List.append_nil]
  · intro smp h
    simp only [evaluate, h, maybeAlert_none, Option.toList, List.append_nil]
  · intro hh
    simp only [alertsEffect, hh, if_false]
  · exact (evaluate_absent host now env ⟨none, some 95, some 50⟩ s .cpu rfl).2
  · intro hcool
    have hmem := maybeAlert_emit host now (env .mem) .mem 95 s
      (by rw [severity_mem_95]; decide) (by rw [severity_mem_95]; exact hcool)
    have hdisk : ∀ t : State, maybeAlert host now (env .disk) .disk (some 50) t = (t, none) :=
      fun t => maybeAlert_ok _ _ _ _ _ _ severity_disk_50
    simp only [evaluate, maybeAlert_none, hmem, hdisk, newAlert, severity_mem_95,
      alertMessage_mem_95]
    rfl

/-- The cooldown condition of the last part of `absent_metric_skipped` holds for
host "h1" at time 30000 in the initial state, and the pass adds the one
CRITICAL mem alert; at time 0, inside the window of the default entry, the
absent cpu is skipped all the same. -/
theorem absent_metric_skipped_witness :
    ALERT_COOLDOWN_MS
      ≤ 30000 - (State.init.lastAlertAt (cooldownKey "h1" .mem .CRITICAL)).getD 0 ∧
    (evaluate "h1" 30000 (fun _ => ⟨"8", "T"⟩) ⟨none, some 95, some 50⟩ State.init).2 =
      [⟨"30000-8", "T", "h1", .mem, 95, .CRITICAL,
        "MEM crossed threshold (95.0% ≥ 90%)", false⟩] ∧
    (∀ a ∈ (evaluate "h1" 0 (fun _ => ⟨"8", "T"⟩) ⟨none, some 95, some 50⟩ State.init).2,
      a.metric ≠ .cpu) :=
  ⟨by decide, by
    rw [(absent_metric_skipped "h1" 30000 (fun _ => ⟨"8", "T"⟩)
      State.init).2.2.2.2.2.2.2 (by decide)]
    rfl,
    ((absent_metric_skipped "h1" 0 (fun _ => ⟨"8", "T"⟩) State.init).1
      ⟨none, some 95, some 50⟩ .cpu rfl).1⟩

/-! ## Decimal rendering of `now` and the shape of an id -/

theorem digitChar_isDigit (d : Nat) (h : d < 10) :
    (Nat.digitChar d).isDigit = true ∧ (Nat.digitChar d).toNat - 48 = d := by
  interval_cases d <;> exact ⟨rfl, rfl⟩

theorem toDigitsCore_append (f : Nat) :
    ∀ (n : Nat) (ds : List Char),
      Nat.toDigitsCore 10 f n ds = Nat.toDigitsCore 10 f n [] ++ ds := by
  induction f with
  | zero => intro n ds; simp [Nat.toDigitsCore]
  | succ f ih =>
    intro n ds
    simp only [Nat.toDigitsCore]
    by_cases h : n / 10 = 0
    · simp [h]
    · simp only [h, if_false]
      rw [ih (n / 10) (Nat.digitChar (n % 10) :: ds), ih (n / 10) [Nat.digitChar (n % 10)]]
      simp

theorem decodeDigits_snoc (l : List Char) (c : Char) :
    decodeDigits (l ++ [c]) = 10 * decodeDigits l + (c.toNat - 48) := by
  simp [decodeDigits, List.foldl_append]

theorem toDigitsCore_spec (f : Nat) :
    ∀ n : Nat, n < f →
      decodeDigits (Nat.toDigitsCore 10 f n []) = n ∧
      (∀ c ∈ Nat.toDigitsCore 10 f n [], c.isDigit = true) ∧
      Nat.toDigitsCore 10 f n [] ≠ [] := by
  induction f with
  | zero => intro n h; omega
  | succ f ih =>
    intro n hn
    have hd := digitChar_isDigit (n % 10) (Nat.mod_lt _ (by decide))
    simp only [Nat.toDigitsCore]
    by_cases h : n / 10 = 0
    · simp only [h, if_true]
      refine ⟨?_, ?_, by simp⟩
      · simp only [decodeDigits, List.foldl_cons, List.foldl_nil, hd.2]
        omega
      · intro c hc
        simp only [List.mem_singleton] at hc
        rw [hc]; exact hd.1
    · simp only [h, if_false]
      rw [toDigitsCore_append]
      obtain ⟨h1, h2, _⟩ := ih (n / 10) (by omega)
      refine ⟨?_, ?_, by simp⟩
      · rw [decodeDigits_snoc, h1, hd.2]
        omega
      · intro c hc
        simp only [List.mem_append, List.mem_singleton] at hc
        rcases hc with hc | hc
        · exact h2 c hc
        · rw [hc]; exact hd.1

theorem natRepr_spec (n : Nat) :
    decodeDigits (toString n).data = n ∧
    (∀ c ∈ (toString n).data, c.isDigit = true) ∧ (toString n).data ≠ [] := by
  have h := toDigitsCore_spec (n + 1) n (Nat.lt_succ_self n)
  simpa [toString, Nat.repr, Nat.toDigits, List.asString] using h

/-- Two lists that agree after a separator `c`, with no `c`-like character
before it, agree before and after it. -/
theorem split_at_separator (p : Char → Bool) (c : Char) (hc : p c = false) :
    ∀ (xs ys u v : List Char), (∀ x ∈ xs, p x = true) → (∀ y ∈ ys, p y = true) →
      xs ++ c :: u = ys ++ c :: v → xs = ys ∧ u = v := by
  intro xs
  induction xs with
  | nil =>
    intro ys u v _ hy h
    cases ys with
    | nil => simpa using h
    | cons y ys =>
      simp only [List.nil_append, List.cons_append, List.cons.injEq] at h
      have := hy y (List.mem_cons_self _ _)
      rw [← h.1, hc] at this
      cases this
  | cons x xs ih =>
    intro ys u v hx hy h
    cases ys with
    | nil =>
      simp only [List.nil_append, List.cons_append, List.cons.injEq] at h
      have := hx x (List.mem_cons_self _ _)
      rw [h.1, hc] at this
      cases this
    | cons y ys =>
      simp only [List.cons_append, List.cons.injEq] at h
      obtain ⟨h1, h2⟩ := ih ys u v (fun z hz => hx z (List.mem_cons_of_mem _ hz))
        (fun z hz => hy z (List.mem_cons_of_mem _ hz)) h.2
      exact ⟨by rw [h.1, h1], h2⟩

theorem natRepr_sep_inj (a b : Nat) (u v : List Char)
    (h : (toString a).data ++ '-' :: u = (toString b).data ++ '-' :: v) : a = b ∧ u = v := by
  obtain ⟨ha, hda, _⟩ := natRepr_spec a
  obtain ⟨hb, hdb, _⟩ := natRepr_spec b
  obtain ⟨h1, h2⟩ := split_at_separator Char.isDigit '-' (by decide) _ _ u v hda hdb h
  refine ⟨?_, h2⟩
  rw [← ha, ← hb, h1]

theorem intToString_data (n : Int) :
    (∃ a : Nat, n = a ∧ (toString n).data = (toString a).data) ∨
    (∃ a : Nat, n = Int.negSucc a ∧ (toString n).data = '-' :: (toString (a + 1)).data) := by
  cases n with
  | ofNat a => exact Or.inl ⟨a, rfl, rfl⟩
  | negSucc a => exact Or.inr ⟨a, rfl, rfl⟩

/-- The id `now` + "-" + suffix determines `now` and the suffix. -/
theorem id_injective (n m : Int) (r r' : String)
    (h : toString n ++ "-" ++ r = toString m ++ "-" ++ r') : n = m ∧ r = r' := by
  have hd := congrArg String.data h
  simp only [String.data_append] at hd
  rw [List.append_assoc, List.append_assoc, List.singleton_append,
    List.singleton_append] at hd
  rcases intToString_data n with ⟨a, ha, hna⟩ | ⟨a, ha, hna⟩ <;>
    rcases intToString_data m with ⟨b, hb, hmb⟩ | ⟨b, hb, hmb⟩
  · rw [hna, hmb] at hd
    obtain ⟨h1, h2⟩ := natRepr_sep_inj a b _ _ hd
    exact ⟨by rw [ha, hb, h1], String.ext h2⟩
  · exfalso
    rw [hna, hmb] at hd
    obtain ⟨_, hda, hne⟩ := natRepr_spec a
    cases hl : (toString a).data with
    | nil => exact hne hl
    | cons x xs =>
      rw [hl] at hd hda
      simp only [List.cons_append, List.cons.injEq] at hd
      have := hda x (List.mem_cons_self _ _)
      rw [hd.1] at this
      revert this
      decide
  · exfalso
    rw [hna, hmb] at hd
    obtain ⟨_, hdb, hne⟩ := natRepr_spec b
    cases hl : (toString b).data with
    | nil => exact hne hl
    | cons x xs =>
      rw [hl] at hd hdb
      simp only [List.cons_append, List.cons.injEq] at hd
      have := hdb x (List.mem_cons_self _ _)
      rw [← hd.1] at this
      revert this
      decide
  · rw [hna, hmb] at hd
    simp only [List.cons_append, List.cons.injEq, true_and] at hd
    obtain ⟨h1, h2⟩ := natRepr_sep_inj _ _ _ _ hd
    exact ⟨by rw [ha, hb]; congr 1; omega, String.ext h2⟩

/-! ## Ids of the records of a reachable log -/

/-- A pass of the alerts effect is the run of its three calls. -/
theorem run_passEvents (host : String) (latest : Option Sample) (now : Int)
    (env : Metric → Draw) (s : State) :
    run s (passEvents host latest now env) = (alertsEffect host latest now env s).1 := by
  cases latest with
  | none => rfl
  | some smp =>
    by_cases hh : host = ""
    · simp [passEvents, alertsEffect, hh, run]
    · simp [passEvents, alertsEffect, hh, run, step, evaluate]

theorem step_ids_sublist (s : State) (e : Event) :
    ((step s e).1.alerts.map Alert.id).Sublist
      (((step s e).2.toList.map (fun x => x.alert.id)).reverse ++ s.alerts.map Alert.id) := by
  cases e with
  | call host now env metric value =>
    rcases maybeAlert_cases host now env metric value s with h | ⟨v, _, _, _, h⟩
    · simp [step, h]
    · simp only [step, h, Option.map_some', Option.toList, List.map_cons, List.map_nil,
        List.reverse_cons, List.reverse_nil, List.nil_append, List.singleton_append]
      rw [← List.map_cons]
      exact (List.take_sublist 20 _).map _
  | ack id =>
    simp only [step, Option.toList, List.map_nil, List.reverse_nil, List.nil_append]
    have : (ackAlert id s.alerts).map Alert.id = s.alerts.map Alert.id := by
      unfold ackAlert
      rw [List.map_map]
      apply List.map_congr_left
      intro a _
      by_cases h : a.id = id <;> simp [h]
    rw [this]
  | clearAll => simp [step, clearAlerts]
  | clearAcked =>
    simp only [step, Option.toList, List.map_nil, List.reverse_nil, List.nil_append]
    exact (List.filter_sublist _).map _

theorem run_ids_sublist (es : List Event) :
    ∀ s : State, ((run s es).alerts.map Alert.id).Sublist
      (((emissions s es).map (fun x => x.alert.id)).reverse ++ s.alerts.map Alert.id) := by
  induction es with
  | nil => intro s; simp [run, emissions]
  | cons e es ih =>
    intro s
    simp only [run, emissions, List.map_append, List.reverse_append, List.append_assoc]
    exact (ih _).trans ((List.Sublist.refl _).append (step_ids_sublist s e))

theorem emission_id (es : List Event) :
    ∀ (s : State) (x : Emission), x ∈ emissions s es →
      x.alert.id = toString x.now ++ "-" ++ x.random := by
  induction es with
  | nil => intro s x hx; simp [emissions] at hx
  | cons e es ih =>
    intro s x hx
    simp only [emissions, List.mem_append] at hx
    rcases hx with hx | hx
    · rcases step_cases s e with ⟨h, _⟩ | ⟨host, now, env, metric, v, _, _, _, h⟩
      · rw [h] at hx; simp at hx
      · rw [h] at hx
        simp only [Option.toList, List.mem_singleton] at hx
        subst hx
        rfl
    · exact ih _ x hx

/-- C9, amended: in every log reachable from the initial state by `maybeAlert`
calls, acknowledgements and clears, the ids of the records are pairwise
distinct, provided no two emitted alerts were built from the same `now`
together with the same random suffix. -/
theorem ids_distinct (es : List Event)
    (h : ((emissions State.init es).map (fun x => (x.now, x.random))).Nodup) :
    ((run State.init es).alerts.map Alert.id).Nodup := by
  have hsub := run_ids_sublist es State.init
  simp only [State.init, List.map_nil, List.append_nil] at hsub
  apply hsub.nodup
  rw [List.nodup_reverse]
  have hmap : (emissions State.init es).map (fun x => x.alert.id) =
      ((emissions State.init es).map (fun x => (x.now, x.random))).map
        (fun p => toString p.1 ++ "-" ++ p.2) := by
    rw [List.map_map]
    apply List.map_congr_left
    intro x hx
    exact emission_id es _ x hx
  rw [show (emissions ⟨[], fun _ => none⟩ es) = emissions State.init es from rfl, hmap]
  apply h.map
  intro p q hpq
  obtain ⟨h1, h2⟩ := id_injective _ _ _ _ hpq
  exact Prod.ext h1 h2

theorem two_alert_pass (envs : Metric → Draw) :
    alertsEffect "h1" (some ⟨some 81, some 95, none⟩) 30000 envs State.init =
      (⟨[newAlert "h1" 30000 (envs .mem) .mem 95, newAlert "h1" 30000 (envs .cpu) .cpu 81],
        Function.update
          (Function.update (fun _ => none) (cooldownKey "h1" .cpu .CRITICAL) (some 30000))
          (cooldownKey "h1" .mem .CRITICAL) (some 30000)⟩,
       [newAlert "h1" 30000 (envs .cpu) .cpu 81, newAlert "h1" 30000 (envs .mem) .mem 95]) := by
  have hh : ¬ ("h1" = "") := by decide
  have h1 := maybeAlert_emit "h1" 30000 (envs .cpu) .cpu 81 State.init
    (by rw [severity_cpu_81]; decide) (by rw [severity_cpu_81]; decide)
  have hk : cooldownKey "h1" .mem .CRITICAL ≠ cooldownKey "h1" .cpu .CRITICAL := by decide
  have h2 := maybeAlert_emit "h1" 30000 (envs .mem) .mem 95
    ⟨pushAlert (newAlert "h1" 30000 (envs .cpu) .cpu 81) State.init.alerts,
      Function.update State.init.lastAlertAt (cooldownKey "h1" .cpu (severity .cpu 81))
        (some 30000)⟩
    (by rw [severity_mem_95]; decide)
    (by
      rw [severity_mem_95, severity_cpu_81]
      simp only [Function.update_apply, hk, if_false, State.init, Option.getD_none]
      decide)
  simp only [alertsEffect, hh, if_false, evaluate, h1, h2, maybeAlert_none, severity_cpu_81,
    severity_mem_95]
  rfl

/-- C9, as the code has it: when the random source returns the same suffix for
the cpu and the mem alert of one pass at `now = 30000`, the two records of the
resulting log have the same id, "30000-8". -/
theorem ids_collide_counterexample :
    ¬ ((alertsEffect "h1" (some ⟨some 81, some 95, none⟩) 30000 (fun _ => ⟨"8", "T"⟩)
        State.init).1.alerts.map Alert.id).Nodup := by
  rw [two_alert_pass]
  simp [newAlert]

/-- The hypothesis of `ids_distinct` holds for the pass that emits a cpu and a
mem alert at `now = 30000` with the suffixes "8" and "9". -/
theorem ids_distinct_witness :
    ((emissions State.init
        (passEvents "h1" (some ⟨some 81, some 95, none⟩) 30000
          (fun m => if m = .cpu then ⟨"8", "T"⟩ else ⟨"9", "T"⟩))).map
      (fun x => (x.now, x.random))) = [(30000, "8"), (30000, "9")] ∧
    ((run State.init
        (passEvents "h1" (some ⟨some 81, some 95, none⟩) 30000
          (fun m => if m = .cpu then ⟨"8", "T"⟩ else ⟨"9", "T"⟩))).alerts.map Alert.id).Nodup :=
  have hem : ((emissions State.init
        (passEvents "h1" (some ⟨some 81, some 95, none⟩) 30000
          (fun m => if m = .cpu then ⟨"8", "T"⟩ else ⟨"9", "T"⟩))).map
      (fun x => (x.now, x.random))) = [(30000, "8"), (30000, "9")] := by
    have hh : ¬ ("h1" = "") := by decide
    have h1 := maybeAlert_emit "h1" 30000 ⟨"8", "T"⟩ .cpu 81 State.init
      (by rw [severity_cpu_81]; decide) (by rw [severity_cpu_81]; decide)
    have hk : cooldownKey "h1" .mem .CRITICAL ≠ cooldownKey "h1" .cpu .CRITICAL := by decide
    have h2 := maybeAlert_emit "h1" 30000 ⟨"9", "T"⟩ .mem 95
      ⟨pushAlert (newAlert "h1" 30000 ⟨"8", "T"⟩ .cpu 81) State.init.alerts,
        Function.update State.init.lastAlertAt (cooldownKey "h1" .cpu (severity .cpu 81))
          (some 30000)⟩
      (by rw [severity_mem_95]; decide)
      (by
        rw [severity_mem_95, severity_cpu_81]
        simp only [Function.update_apply, hk, if_false, State.init, Option.getD_none]
        decide)
    simp [passEvents, hh, emissions, step, h1, h2, maybeAlert_none]
  ⟨hem, ids_distinct _ (by rw [hem]; decide)⟩

/-! ## A run with a suppressed evaluation -/

/-- Three cpu evaluations of 85 for host "h1" at 30000, 40000 and 60000 from
the initial state: the first and the third emit, the second is suppressed. -/
theorem emissions_three_calls :
    (emissions State.init
      [.call "h1" 30000 ⟨"a", "T0"⟩ .cpu (some 85), .call "h1" 40000 ⟨"b", "T1"⟩ .cpu (some 85),
        .call "h1" 60000 ⟨"c", "T2"⟩ .cpu (some 85)]).map (fun x => (x.now, x.random))
      = [(30000, "a"), (60000, "c")] := by
  have h1 := maybeAlert_emit "h1" 30000 ⟨"a", "T0"⟩ .cpu 85 State.init
    (by rw [severity_cpu_85]; decide) (by rw [severity_cpu_85]; decide)
  have h2 := maybeAlert_cooldown "h1" 40000 ⟨"b", "T1"⟩ .cpu 85
    ⟨pushAlert (newAlert "h1" 30000 ⟨"a", "T0"⟩ .cpu 85) State.init.alerts,
      Function.update State.init.lastAlertAt (cooldownKey "h1" .cpu (severity .cpu 85))
        (some 30000)⟩
    (by simp only [Function.update_same, Option.getD_some]; decide)
  have h3 := maybeAlert_emit "h1" 60000 ⟨"c", "T2"⟩ .cpu 85
    ⟨pushAlert (newAlert "h1" 30000 ⟨"a", "T0"⟩ .cpu 85) State.init.alerts,
      Function.update State.init.lastAlertAt (cooldownKey "h1" .cpu (severity .cpu 85))
        (some 30000)⟩
    (by rw [severity_cpu_85]; decide)
    (by simp only [Function.update_same, Option.getD_some]; decide)
  simp [emissions, step, h1, h2, h3]

end Monitor
